import Mathlib

/-!
Verification of the feetech-servo-ts packet protocol engine.

The definitions below are a shallow embedding of the TypeScript source:
`Uint8Array` values become `List Nat` whose elements are kept below 256 by
explicit `% 256` truncation at every store, exceptions become `Except`
values, and the serial port becomes an explicit state (the list of bytes
that will arrive from the bus, plus the trace of transmitted packets).
Error `message` strings are elided; the error `code` and the optional
`deviceId` carried by the TypeScript `ServoError` are kept, and for
hardware errors the list of named conditions that the source interpolates
into the message is kept as a field of its own.
-/

namespace Feetech

/-- Truncation performed by a `Uint8Array` element store (`x & 0xFF`). -/
def byte (n : Nat) : Nat := n % 256

/-! Constants from `src/core/constants.ts`. -/

def BROADCAST_ID : Nat := 0xFE

def MAX_ID : Nat := 0xFD

def HEADER0 : Nat := 0xFF

def HEADER1 : Nat := 0xFF

def HEADER_LENGTH : Nat := 2

def ID_LENGTH : Nat := 1

def LENGTH_LENGTH : Nat := 1

def INSTRUCTION_LENGTH : Nat := 1

def ERROR_LENGTH : Nat := 1

def CHECKSUM_LENGTH : Nat := 1

/-- `HEADER_LENGTH + ID_LENGTH + LENGTH_LENGTH + INSTRUCTION_LENGTH + CHECKSUM_LENGTH = 6`. -/
def MIN_PACKET_LENGTH : Nat :=
  HEADER_LENGTH + ID_LENGTH + LENGTH_LENGTH + INSTRUCTION_LENGTH + CHECKSUM_LENGTH

/-- JS `(highByte << 8) | lowByte` from `src/core/constants.ts`. -/
def makeWord (lowByte highByte : Nat) : Nat := (highByte <<< 8) ||| lowByte

/-- JS `word & 0xFF`. -/
def getLowByte (word : Nat) : Nat := word &&& 0xFF

/-- JS `(word >> 8) & 0xFF`. -/
def getHighByte (word : Nat) : Nat := (word >>> 8) &&& 0xFF

/-! Instruction codes from the `Instruction` enum in `src/types/index.ts`. -/

namespace Instruction

def PING : Nat := 0x01

def READ : Nat := 0x02

def WRITE : Nat := 0x03

def REG_WRITE : Nat := 0x04

def ACTION : Nat := 0x05

def FACTORY_RESET : Nat := 0x06

def REBOOT : Nat := 0x08

def SYNC_WRITE : Nat := 0x83

def SYNC_READ : Nat := 0x82

end Instruction

/-! Error bit masks from the `ErrorBit` enum in `src/types/index.ts`. -/

namespace ErrorBit

def VOLTAGE : Nat := 0x01

def ANGLE : Nat := 0x02

def OVERHEAT : Nat := 0x04

def RANGE : Nat := 0x08

def CHECKSUM : Nat := 0x10

def OVERLOAD : Nat := 0x20

def INSTRUCTION : Nat := 0x40

end ErrorBit

/-- The `ErrorCode` enum of `src/types/index.ts`. -/
inductive ErrorCode
  | connectionFailed
  | connectionLost
  | portNotFound
  | permissionDenied
  | timeout
  | checksumError
  | invalidResponse
  | deviceNotFound
  | writeError
  | readError
  | invalidParameter
  | hardwareError
  deriving DecidableEq, Repr

/-- The `ServoError` class: the free-form `message` string is elided, the
`code` and optional `deviceId` are kept, and the list of hardware error
condition names that `checkError` interpolates into its message is kept in
`conditions` (empty for every other error site). -/
structure ServoError where
  code : ErrorCode
  deviceId : Option Nat := none
  conditions : List String := []
  deriving DecidableEq, Repr

/-- The `ResponsePacket` interface of `src/types/index.ts`. -/
structure ResponsePacket where
  id : Nat
  instruction : Nat
  parameters : List Nat
  length : Nat
  error : Nat
  checksum : Nat
  deriving DecidableEq, Repr

/-- `PacketHandler.calculateChecksum`: the JS `(~sum) & 0xFF` on the
non-negative 32-bit-safe `sum` equals `255 - sum % 256`. -/
def calculateChecksum (data : List Nat) : Nat := 255 - data.sum % 256

/-- `PacketHandler.createPacket`. The TS code allocates a zero-filled
`Uint8Array` and fills it with indexed stores; the resulting byte sequence
is the concatenation below. The checksum spans `packet.slice(2, packetLength - 1)`,
which is exactly the `body` bytes. -/
def createPacket (id instruction : Nat) (parameters : List Nat) : List Nat :=
  let body := [byte id, byte (parameters.length + 2), byte instruction] ++ parameters.map byte
  [HEADER0, HEADER1] ++ body ++ [calculateChecksum body]

/-- `PacketHandler.parsePacket`. A note on `length - 2`: in JS this can be
negative (for `length < 2`) and the `paramLength > 0` guard then skips the
slice; Nat truncated subtraction yields `0` there and the same guard skips
the slice, so the two agree. -/
def parsePacket (data : List Nat) : Except ServoError ResponsePacket :=
  if data.length < MIN_PACKET_LENGTH then
    .error { code := .invalidResponse }
  else if data.getD 0 0 ≠ HEADER0 ∨ data.getD 1 0 ≠ HEADER1 then
    .error { code := .invalidResponse }
  else
    let id := data.getD 2 0
    let length := data.getD 3 0
    let error := data.getD 4 0
    let expectedPacketLength := HEADER_LENGTH + ID_LENGTH + LENGTH_LENGTH + length
    if data.length < expectedPacketLength then
      .error { code := .invalidResponse }
    else
      let paramLength := length - 2
      let parameters := if 0 < paramLength then (data.drop 5).take paramLength else []
      let receivedChecksum := data.getD (expectedPacketLength - 1) 0
      let calculatedChecksum := calculateChecksum ((data.drop 2).take (expectedPacketLength - 1 - 2))
      if receivedChecksum ≠ calculatedChecksum then
        .error { code := .checksumError, deviceId := some id }
      else
        .ok { id := id, instruction := 0, parameters := parameters,
              length := length, error := error, checksum := receivedChecksum }

/-- `PacketHandler.createPingPacket`. -/
def createPingPacket (id : Nat) : List Nat := createPacket id Instruction.PING []

/-- `PacketHandler.createReadPacket`. -/
def createReadPacket (id address length : Nat) : List Nat :=
  createPacket id Instruction.READ [address, length]

/-- `PacketHandler.createWritePacket`. -/
def createWritePacket (id address : Nat) (data : List Nat) : List Nat :=
  createPacket id Instruction.WRITE (address :: data)

/-- `PacketHandler.createSyncWritePacket`: parameters are
`[address, length]` followed by one `id :: values` group per entry, in
entry order; the packet is addressed to `BROADCAST_ID` with `SYNC_WRITE`. -/
def createSyncWritePacket (address length : Nat) (data : List (Nat × List Nat)) : List Nat :=
  createPacket BROADCAST_ID Instruction.SYNC_WRITE
    ([address, length] ++ data.flatMap fun item => item.1 :: item.2)

/-- `PacketHandler.createSyncReadPacket`. -/
def createSyncReadPacket (address length : Nat) (ids : List Nat) : List Nat :=
  createPacket BROADCAST_ID Instruction.SYNC_READ ([address, length] ++ ids)

/-- The condition strings pushed by `PacketHandler.checkError`, in the
source's test order. -/
def buildConditions (error : Nat) : List String :=
  (if error &&& ErrorBit.VOLTAGE ≠ 0 then ["Input voltage error"] else []) ++
  (if error &&& ErrorBit.ANGLE ≠ 0 then ["Angle limit error"] else []) ++
  (if error &&& ErrorBit.OVERHEAT ≠ 0 then ["Overheat error"] else []) ++
  (if error &&& ErrorBit.RANGE ≠ 0 then ["Out of range error"] else []) ++
  (if error &&& ErrorBit.CHECKSUM ≠ 0 then ["Checksum error"] else []) ++
  (if error &&& ErrorBit.OVERLOAD ≠ 0 then ["Overload error"] else []) ++
  (if error &&& ErrorBit.INSTRUCTION ≠ 0 then ["Invalid instruction error"] else [])

/-- `PacketHandler.checkError`: returns without raising for error byte 0,
collects the recognised error-bit conditions, and raises `HardwareError`
only when at least one recognised condition is present. -/
def checkError (packet : ResponsePacket) : Except ServoError Unit :=
  if packet.error = 0 then .ok ()
  else
    let errors := buildConditions packet.error
    if 0 < errors.length then
      .error { code := .hardwareError, deviceId := some packet.id, conditions := errors }
    else .ok ()

/-- `PacketHandler.isValidPacketStart`. -/
def isValidPacketStart (data : List Nat) : Bool :=
  2 ≤ data.length && data.getD 0 0 == HEADER0 && data.getD 1 0 == HEADER1

/-- `PacketHandler.getPacketLength`. -/
def getPacketLength (data : List Nat) : Option Nat :=
  if data.length < 4 then none
  else some (HEADER_LENGTH + ID_LENGTH + LENGTH_LENGTH + data.getD 3 0)

/-! The serial port (`WebSerialPortHandler`), seen through the operations
the protocol code uses. `inbound` is the sequence of bytes the devices
send onto the bus after the request is transmitted (the source's `flush`
discards bytes buffered from before the transaction, so the model starts
each transaction from the post-flush stream); `written` is the trace of
packets handed to `write`, in transmission order. A failed `read` or
`waitForData` raises `Timeout` without consuming, matching the source. -/

structure Port where
  inbound : List Nat
  written : List (List Nat)
  deriving DecidableEq, Repr

/-- `WebSerialPortHandler.read n`: consumes `n` bytes, or times out
without consuming when the stream never delivers them. -/
def portRead (n : Nat) (buf : List Nat) : Except ServoError (List Nat × List Nat) :=
  if n ≤ buf.length then .ok (buf.take n, buf.drop n)
  else .error { code := .timeout }

/-- The header scan loop shared by `ProtocolHandler.sendAndReceive` and
`GroupSyncRead.readResponse`: wait for 2 bytes, peek them, stop at
`FF FF`, otherwise consume one byte and retry. When fewer than 2 bytes
remain, `waitForData` times out; bytes already discarded stay consumed.
The returned list is the buffer positioned at the header. -/
def scanHeader : List Nat → Except ServoError Unit × List Nat
  | a :: b :: rest =>
    if a = HEADER0 ∧ b = HEADER1 then (.ok (), a :: b :: rest)
    else scanHeader (b :: rest)
  | l => (.error { code := .timeout }, l)

/-- The frame-extraction phase shared by `ProtocolHandler.sendAndReceive`
and `GroupSyncRead.readResponse`: scan to a header, read the 4 header
bytes, compute the total length from the length field, read the rest and
parse the reassembled packet. The source rebuilds `fullPacket` by placing
`headerAndLen` at offset 0 and `payload` at offset 4, which is exactly
their concatenation. -/
def receivePacket (inbound : List Nat) : Except ServoError ResponsePacket × List Nat :=
  match scanHeader inbound with
  | (.error e, rest) => (.error e, rest)
  | (.ok _, rest) =>
    match portRead 4 rest with
    | .error e => (.error e, rest)
    | .ok (headerAndLen, rest1) =>
      match getPacketLength headerAndLen with
      | none => (.error { code := .invalidResponse }, rest1)
      | some pktLen =>
        match portRead (pktLen - 4) rest1 with
        | .error e => (.error e, rest1)
        | .ok (payload, rest2) => (parsePacket (headerAndLen ++ payload), rest2)

/-- The receive-and-validate sequence of `ProtocolHandler.sendAndReceive`
(also the body of `GroupSyncRead.readResponse`): extract a frame, require
`response.id == expectedId`, then apply `checkError`. -/
def readResponse (expectedId : Nat) (inbound : List Nat) :
    Except ServoError ResponsePacket × List Nat :=
  match receivePacket inbound with
  | (.error e, rest) => (.error e, rest)
  | (.ok response, rest) =>
    if response.id ≠ expectedId then (.error { code := .invalidResponse }, rest)
    else
      match checkError response with
      | .error e => (.error e, rest)
      | .ok _ => (.ok response, rest)

/-- `ProtocolHandler.sendAndReceive`: flush stale input, transmit the
request, then receive and validate the response. No check of the target
id is performed before transmitting. -/
def sendAndReceive (packet : List Nat) (expectedId : Nat) (port : Port) :
    Except ServoError ResponsePacket × Port :=
  let port1 : Port := { port with written := port.written ++ [packet] }
  let (r, rest) := readResponse expectedId port1.inbound
  (r, { port1 with inbound := rest })

/-- `ProtocolHandler.readData`: a READ transaction whose response must
carry at least `length` parameter bytes; the first `length` of them are
returned. -/
def readData (id address length : Nat) (port : Port) :
    Except ServoError (List Nat) × Port :=
  let (r, port1) := sendAndReceive (createReadPacket id address length) id port
  match r with
  | .error e => (.error e, port1)
  | .ok response =>
    if response.parameters.length < length then
      (.error { code := .invalidResponse, deviceId := some id }, port1)
    else
      (.ok (response.parameters.take length), port1)

/-- The `PingResult` interface. -/
structure PingResult where
  id : Nat
  modelNumber : Nat
  firmwareVersion : Nat
  deriving DecidableEq, Repr

/-- `ProtocolHandler.ping`: a PING transaction addressed to `id`, followed
by best-effort reads of the model number (address 3, 2 bytes) and firmware
version (address 2, 1 byte); a failure of either read is swallowed and the
corresponding field keeps its prior value (`0`, or the already-read model
number). -/
def ping (id : Nat) (port : Port) : Except ServoError PingResult × Port :=
  let (r, port1) := sendAndReceive (createPingPacket id) id port
  match r with
  | .error e => (.error e, port1)
  | .ok _ =>
    let (mres, port2) := readData id 3 2 port1
    match mres with
    | .error _ => (.ok { id := id, modelNumber := 0, firmwareVersion := 0 }, port2)
    | .ok modelData =>
      let modelNumber := makeWord (modelData.getD 0 0) (modelData.getD 1 0)
      let (fres, port3) := readData id 2 1 port2
      match fres with
      | .error _ => (.ok { id := id, modelNumber := modelNumber, firmwareVersion := 0 }, port3)
      | .ok fwData =>
        (.ok { id := id, modelNumber := modelNumber, firmwareVersion := fwData.getD 0 0 }, port3)

/-! Group operations (`GroupSyncWrite`, `GroupSyncRead`). A JS `Map`
becomes an association list in insertion order: setting an existing key
replaces its value in place, setting a new key appends. A JS `Set`
becomes a duplicate-free list in insertion order. -/

/-- JS `Map.prototype.set` on an insertion-ordered association list. -/
def mapSet (m : List (Nat × List Nat)) (key : Nat) (value : List Nat) : List (Nat × List Nat) :=
  if m.any (fun e => e.1 = key) then
    m.map fun e => if e.1 = key then (key, value) else e
  else m ++ [(key, value)]

/-- JS `Map.prototype.get` on an insertion-ordered association list: the
value of the first (and, for `Map`, only) entry with the key. -/
def mapGet : List (Nat × List Nat) → Nat → Option (List Nat)
  | [], _ => none
  | e :: rest, key => if e.1 = key then some e.2 else mapGet rest key

/-- The mutable state of a `GroupSyncWrite` batch. -/
structure GroupSyncWrite where
  address : Nat
  dataLength : Nat
  dataMap : List (Nat × List Nat)
  deriving DecidableEq, Repr

/-- `GroupSyncWrite.addParam`: rejects data whose length differs from the
batch's configured width (the entry map is left unchanged: the caller
keeps the prior state on error), otherwise stores a copy keyed by id. -/
def gswAddParam (g : GroupSyncWrite) (id : Nat) (data : List Nat) :
    Except ServoError GroupSyncWrite :=
  if data.length ≠ g.dataLength then
    .error { code := .invalidParameter, deviceId := some id }
  else
    .ok { g with dataMap := mapSet g.dataMap id data }

/-- `GroupSyncWrite.txPacket`: fails with `InvalidParameter` and transmits
nothing when no entries were added; otherwise flushes, transmits exactly
one sync-write packet built from the entries in map order, and reads no
response (the trailing settle delay has no observable byte-level effect).
The second component is the list of transmitted packets. -/
def gswTxPacket (g : GroupSyncWrite) : Except ServoError Unit × List (List Nat) :=
  if g.dataMap.length = 0 then
    (.error { code := .invalidParameter }, [])
  else
    (.ok (), [createSyncWritePacket g.address g.dataLength g.dataMap])

/-- The mutable state of a `GroupSyncRead` batch: `idList` models the JS
`Set` of ids in insertion order, `dataMap` the cached results. -/
structure GroupSyncRead where
  address : Nat
  dataLength : Nat
  idList : List Nat
  dataMap : List (Nat × List Nat)
  deriving DecidableEq, Repr

/-- `GroupSyncRead.addParam`: JS `Set.add`. -/
def gsrAddParam (g : GroupSyncRead) (id : Nat) : GroupSyncRead :=
  if id ∈ g.idList then g else { g with idList := g.idList ++ [id] }

/-- `GroupSyncRead.getData`: the cached bytes for an id, absent when the
id failed or was never requested (the source returns a defensive copy). -/
def gsrGetData (g : GroupSyncRead) (id : Nat) : Option (List Nat) :=
  mapGet g.dataMap id

/-- The per-id collection loop of `GroupSyncRead.txRxPacket`: one
`readResponse` per id against the shared inbound stream; a response with
at least `dataLength` parameter bytes is cached (truncated to
`dataLength`), a shorter response is dropped, and a failed read is logged
and skipped — in every case the loop continues with the bytes the
attempt left unconsumed. -/
def gsrLoop (dataLength : Nat) : List Nat → List (Nat × List Nat) → List Nat →
    List (Nat × List Nat) × List Nat
  | [], acc, buf => (acc, buf)
  | id :: rest, acc, buf =>
    match readResponse id buf with
    | (.ok response, buf1) =>
      if dataLength ≤ response.parameters.length then
        gsrLoop dataLength rest (mapSet acc id (response.parameters.take dataLength)) buf1
      else
        gsrLoop dataLength rest acc buf1
    | (.error _, buf1) => gsrLoop dataLength rest acc buf1

/-- `GroupSyncRead.txRxPacket`: fails with `InvalidParameter` on an empty
id set; otherwise clears the previous results, transmits one broadcast
solicitation, and collects one response per id in insertion order,
tolerating per-id failures. Returns the updated batch state, the
unconsumed inbound bytes and the transmitted packets. -/
def gsrTxRxPacket (g : GroupSyncRead) (inbound : List Nat) :
    Except ServoError GroupSyncRead × List Nat × List (List Nat) :=
  if g.idList.length = 0 then
    (.error { code := .invalidParameter }, inbound, [])
  else
    let packet := createSyncReadPacket g.address g.dataLength g.idList
    let (m, rest) := gsrLoop g.dataLength g.idList [] inbound
    (.ok { g with dataMap := m }, rest, [packet])

/-! Helper lemmas shared by several results. -/

theorem map_byte_eq {l : List Nat} (h : ∀ b ∈ l, b < 256) : l.map byte = l := by
  have h2 : ∀ b ∈ l, byte b = id b := fun b hb => Nat.mod_eq_of_lt (h b hb)
  rw [List.map_congr_left h2, List.map_id]

/-- Parsing a well-formed frame (header, consistent length byte, correct
checksum, nothing after the checksum byte) succeeds and recovers every
field. -/
theorem parsePacket_wellformed (a b c : Nat) (P : List Nat) (cs : Nat)
    (hb : b = P.length + 2) (hP : P.length ≤ 253)
    (hcs : cs = calculateChecksum ([a, b, c] ++ P)) :
    parsePacket ([255, 255, a, b, c] ++ (P ++ [cs])) =
      .ok { id := a, instruction := 0, parameters := P, length := b, error := c,
            checksum := cs } := by
  subst hb; subst hcs
  set L := P.length with hL
  set cs := calculateChecksum ([a, L + 2, c] ++ P) with hcs
  set d : List Nat := [255, 255, a, L + 2, c] ++ (P ++ [cs]) with hd
  have hdlen : d.length = L + 6 := by simp [hd]
  have h0 : d.getD 0 0 = 255 := rfl
  have h1 : d.getD 1 0 = 255 := rfl
  have h2 : d.getD 2 0 = a := rfl
  have h3 : d.getD 3 0 = L + 2 := rfl
  have h4 : d.getD 4 0 = c := rfl
  have hrecv : d.getD (L + 5) 0 = cs := by
    rw [hd, List.getD_append_right _ _ _ _ (by simp)]
    simp only [List.length_cons, List.length_nil]
    rw [show L + 5 - 5 = L from by omega]
    rw [List.getD_append_right _ _ _ _ (by omega)]
    simp
  have hdrop5 : d.drop 5 = P ++ [cs] := rfl
  have hdrop2 : d.drop 2 = [a, L + 2, c] ++ (P ++ [cs]) := rfl
  have htake : ([a, L + 2, c] ++ (P ++ [cs])).take (L + 3) = [a, L + 2, c] ++ P := by
    rw [List.take_append_eq_append_take]
    simp only [List.length_cons, List.length_nil]
    rw [List.take_of_length_le (by simp only [List.length_cons, List.length_nil]; omega)]
    rw [show L + 3 - 3 = L from by omega]
    rw [List.take_append_eq_append_take, List.take_of_length_le (by omega),
        show L - P.length = 0 from by omega]
    simp
  have hparams : (if 0 < L then (d.drop 5).take L else []) = P := by
    by_cases hz : 0 < L
    · rw [if_pos hz, hdrop5, List.take_left' hL.symm]
    · rw [if_neg hz]
      have : P.length = 0 := by omega
      exact (List.length_eq_zero.mp this).symm
  simp only [parsePacket]
  rw [if_neg (by
    rw [hdlen]
    simp [MIN_PACKET_LENGTH, HEADER_LENGTH, ID_LENGTH, LENGTH_LENGTH,
      INSTRUCTION_LENGTH, CHECKSUM_LENGTH])]
  rw [if_neg (by rw [h0, h1]; simp [HEADER0, HEADER1])]
  rw [if_neg (by
    rw [h3, hdlen]
    simp only [HEADER_LENGTH, ID_LENGTH, LENGTH_LENGTH]
    omega)]
  rw [h2, h3, h4]
  rw [show HEADER_LENGTH + ID_LENGTH + LENGTH_LENGTH + (L + 2) - 1 = L + 5 from by
    simp only [HEADER_LENGTH, ID_LENGTH, LENGTH_LENGTH]; omega]
  rw [hrecv]
  rw [show L + 5 - 2 = L + 3 from by omega]
  rw [hdrop2, htake]
  rw [show L + 2 - 2 = L from by omega]
  rw [if_neg (by simp [hcs])]
  rw [hparams]

/-- A packet built by `createPacket` is exactly a well-formed frame,
whenever the parameter count fits the one-byte length field. -/
theorem parsePacket_createPacket (id instruction : Nat) (parameters : List Nat)
    (hp : ∀ b ∈ parameters, b < 256) (hL : parameters.length ≤ 253) :
    parsePacket (createPacket id instruction parameters) =
      .ok { id := byte id, instruction := 0, parameters := parameters,
            length := parameters.length + 2, error := byte instruction,
            checksum := calculateChecksum
              ([byte id, parameters.length + 2, byte instruction] ++ parameters) } := by
  have hb2 : byte (parameters.length + 2) = parameters.length + 2 :=
    Nat.mod_eq_of_lt (by omega)
  have hpkt : createPacket id instruction parameters =
      [255, 255, byte id, parameters.length + 2, byte instruction] ++
        (parameters ++ [calculateChecksum
          ([byte id, parameters.length + 2, byte instruction] ++ parameters)]) := by
    simp only [createPacket, map_byte_eq hp, hb2, HEADER0, HEADER1]
    simp
  rw [hpkt]
  exact parsePacket_wellformed _ _ _ _ _ rfl hL rfl

set_option maxRecDepth 10000 in
/-- C1, counterexample to the unrestricted claim: with 254 parameter bytes
the one-byte length field wraps to `(254 + 2) % 256 = 0`, so parsing the
built packet does not succeed — it fails with a checksum error — instead
of round-tripping. -/
theorem c1_counterexample :
    parsePacket (createPacket 0 0 (List.replicate 254 0)) =
      .error { code := .checksumError, deviceId := some 0 } := rfl

/-- C1 (amended — the round-trip holds once the parameter count fits the
one-byte length field, i.e. for at most 253 parameters): for every device
id byte, instruction byte, and list of at most 253 parameter bytes,
parsing the packet built by `createPacket` succeeds and yields a packet
whose id equals the given id, whose length field equals
`parameterCount + 2`, and whose parameters equal the original bytes. -/
theorem c1_roundtrip (id instruction : Nat) (parameters : List Nat)
    (hid : id < 256) (hinstr : instruction < 256)
    (hp : ∀ b ∈ parameters, b < 256) (hL : parameters.length ≤ 253) :
    ∃ p : ResponsePacket,
      parsePacket (createPacket id instruction parameters) = .ok p ∧
      p.id = id ∧ p.length = parameters.length + 2 ∧ p.parameters = parameters := by
  refine ⟨_, parsePacket_createPacket id instruction parameters hp hL, ?_, rfl, rfl⟩
  simp [byte, Nat.mod_eq_of_lt hid]

/-- Witness for C1 at id 5, instruction 1, parameters `[9, 7]`. -/
theorem c1_roundtrip_witness :
    (5 < 256 ∧ 1 < 256 ∧ (∀ b ∈ [9, 7], b < 256) ∧ [9, 7].length ≤ 253) ∧
    ∃ p : ResponsePacket,
      parsePacket (createPacket 5 1 [9, 7]) = .ok p ∧
      p.id = 5 ∧ p.length = [9, 7].length + 2 ∧ p.parameters = [9, 7] :=
  ⟨⟨by decide, by decide, by decide, by decide⟩,
    c1_roundtrip 5 1 [9, 7] (by decide) (by decide) (by decide) (by decide)⟩

/-- C2, counterexample to the claim as stated: a buffer holding one valid
6-byte frame plus one extra trailing byte has a declared length (field 2,
frame total 6) that disagrees with the available byte count 7, yet
`parsePacket` succeeds — the source only rejects buffers with fewer bytes
than declared. -/
theorem c2_counterexample :
    parsePacket [255, 255, 5, 2, 0, 248, 0] =
      .ok { id := 5, instruction := 0, parameters := [], length := 2, error := 0,
            checksum := 248 } ∧
    [255, 255, 5, 2, 0, 248, 0].length ≠
      HEADER_LENGTH + ID_LENGTH + LENGTH_LENGTH + [255, 255, 5, 2, 0, 248, 0].getD 3 0 :=
  ⟨rfl, by decide⟩

/-- C2 (amended — "declared length disagrees with the available byte
count" weakened to "declared length exceeds the available byte count";
extra trailing bytes are tolerated): `parsePacket` fails with
`InvalidResponse` when fewer than 6 bytes are present, when the two header
bytes are not `FF FF`, or when fewer bytes are available than the length
field declares; it fails with `ChecksumError` carrying the frame id when
the checksum byte differs from the bitwise NOT of the sum of the bytes
from the id through the last parameter; otherwise it succeeds. -/
theorem c2_parse_failures (data : List Nat) :
    (data.length < 6 → parsePacket data = .error { code := .invalidResponse }) ∧
    (6 ≤ data.length → ¬(data.getD 0 0 = 255 ∧ data.getD 1 0 = 255) →
      parsePacket data = .error { code := .invalidResponse }) ∧
    (6 ≤ data.length → data.getD 0 0 = 255 → data.getD 1 0 = 255 →
      data.length < 4 + data.getD 3 0 →
      parsePacket data = .error { code := .invalidResponse }) ∧
    (6 ≤ data.length → data.getD 0 0 = 255 → data.getD 1 0 = 255 →
      4 + data.getD 3 0 ≤ data.length →
      data.getD (4 + data.getD 3 0 - 1) 0 ≠
        calculateChecksum ((data.drop 2).take (data.getD 3 0 + 1)) →
      parsePacket data = .error { code := .checksumError, deviceId := some (data.getD 2 0) }) ∧
    (6 ≤ data.length → data.getD 0 0 = 255 → data.getD 1 0 = 255 →
      4 + data.getD 3 0 ≤ data.length →
      data.getD (4 + data.getD 3 0 - 1) 0 =
        calculateChecksum ((data.drop 2).take (data.getD 3 0 + 1)) →
      parsePacket data = .ok {
        id := data.getD 2 0, instruction := 0,
        parameters := if 0 < data.getD 3 0 - 2 then (data.drop 5).take (data.getD 3 0 - 2) else [],
        length := data.getD 3 0, error := data.getD 4 0,
        checksum := data.getD (4 + data.getD 3 0 - 1) 0 }) := by
  have harith1 : HEADER_LENGTH + ID_LENGTH + LENGTH_LENGTH + data.getD 3 0 =
      4 + data.getD 3 0 := by
    simp only [HEADER_LENGTH, ID_LENGTH, LENGTH_LENGTH]
  have harith2 : 4 + data.getD 3 0 - 1 - 2 = data.getD 3 0 + 1 := by omega
  refine ⟨?_, ?_, ?_, ?_, ?_⟩
  · intro h
    simp only [parsePacket]
    rw [if_pos (show data.length < MIN_PACKET_LENGTH from h)]
  · intro hlen hhdr
    simp only [parsePacket]
    rw [if_neg (show ¬(data.length < MIN_PACKET_LENGTH) from by
      simp only [MIN_PACKET_LENGTH, HEADER_LENGTH, ID_LENGTH, LENGTH_LENGTH,
        INSTRUCTION_LENGTH, CHECKSUM_LENGTH]
      omega)]
    rw [if_pos (show data.getD 0 0 ≠ HEADER0 ∨ data.getD 1 0 ≠ HEADER1 from by
      simp only [HEADER0, HEADER1]
      tauto)]
  · intro hlen h0 h1 hshort
    simp only [parsePacket]
    rw [if_neg (show ¬(data.length < MIN_PACKET_LENGTH) from by
      simp only [MIN_PACKET_LENGTH, HEADER_LENGTH, ID_LENGTH, LENGTH_LENGTH,
        INSTRUCTION_LENGTH, CHECKSUM_LENGTH]
      omega)]
    rw [if_neg (show ¬(data.getD 0 0 ≠ HEADER0 ∨ data.getD 1 0 ≠ HEADER1) from by
      simp only [HEADER0, HEADER1]
      tauto)]
    rw [if_pos (show data.length < HEADER_LENGTH + ID_LENGTH + LENGTH_LENGTH + data.getD 3 0 from by
      rw [harith1]; omega)]
  · intro hlen h0 h1 hfit hbad
    simp only [parsePacket]
    rw [if_neg (show ¬(data.length < MIN_PACKET_LENGTH) from by
      simp only [MIN_PACKET_LENGTH, HEADER_LENGTH, ID_LENGTH, LENGTH_LENGTH,
        INSTRUCTION_LENGTH, CHECKSUM_LENGTH]
      omega)]
    rw [if_neg (show ¬(data.getD 0 0 ≠ HEADER0 ∨ data.getD 1 0 ≠ HEADER1) from by
      simp only [HEADER0, HEADER1]
      tauto)]
    rw [if_neg (show ¬(data.length < HEADER_LENGTH + ID_LENGTH + LENGTH_LENGTH + data.getD 3 0) from by
      rw [harith1]; omega)]
    rw [harith1, harith2]
    rw [if_pos hbad]
  · intro hlen h0 h1 hfit hgood
    simp only [parsePacket]
    rw [if_neg (show ¬(data.length < MIN_PACKET_LENGTH) from by
      simp only [MIN_PACKET_LENGTH, HEADER_LENGTH, ID_LENGTH, LENGTH_LENGTH,
        INSTRUCTION_LENGTH, CHECKSUM_LENGTH]
      omega)]
    rw [if_neg (show ¬(data.getD 0 0 ≠ HEADER0 ∨ data.getD 1 0 ≠ HEADER1) from by
      simp only [HEADER0, HEADER1]
      tauto)]
    rw [if_neg (show ¬(data.length < HEADER_LENGTH + ID_LENGTH + LENGTH_LENGTH + data.getD 3 0) from by
      rw [harith1]; omega)]
    rw [harith1, harith2]
    rw [if_neg (by simpa using hgood)]

/-- Witness for C2 at the 3-byte input `[1, 2, 3]`, which is rejected as
too short. -/
theorem c2_parse_failures_witness :
    [1, 2, 3].length < 6 ∧
    parsePacket [1, 2, 3] = .error { code := .invalidResponse } :=
  ⟨by decide, (c2_parse_failures [1, 2, 3]).1 (by decide)⟩

/-- C7, counterexample to the decode half of the claim: the spec's
response bytes `FF FF 05 02 00 F9` carry checksum `0xF9`, but the bitwise
NOT of `05 + 02 + 00` is `0xF8`, so decoding fails with `ChecksumError`
instead of succeeding. -/
theorem c7_counterexample :
    parsePacket [0xFF, 0xFF, 0x05, 0x02, 0x00, 0xF9] =
      .error { code := .checksumError, deviceId := some 5 } := rfl

/-- C7 (amended — the response checksum byte is `F8`, not `F9`): encoding
a PING to device 5 yields exactly `FF FF 05 02 01 F7`, and decoding
`FF FF 05 02 00 F8` succeeds with id 5, length 2, error 0 and empty
parameters. -/
theorem c7_ping_scenario :
    createPingPacket 5 = [0xFF, 0xFF, 0x05, 0x02, 0x01, 0xF7] ∧
    parsePacket [0xFF, 0xFF, 0x05, 0x02, 0x00, 0xF8] =
      .ok { id := 5, instruction := 0, parameters := [], length := 2, error := 0,
            checksum := 0xF8 } :=
  ⟨rfl, rfl⟩

/-- The seven recognised error conditions with their bit masks, in the
order the spec lists them (which is also the source's test order). -/
def ERROR_CONDITIONS : List (Nat × String) :=
  [(ErrorBit.VOLTAGE, "Input voltage error"),
   (ErrorBit.ANGLE, "Angle limit error"),
   (ErrorBit.OVERHEAT, "Overheat error"),
   (ErrorBit.RANGE, "Out of range error"),
   (ErrorBit.CHECKSUM, "Checksum error"),
   (ErrorBit.OVERLOAD, "Overload error"),
   (ErrorBit.INSTRUCTION, "Invalid instruction error")]

/-- Spec-side description of the raised conditions: the name of every set
bit among the seven recognised ones. -/
def setConditions (error : Nat) : List String :=
  (ERROR_CONDITIONS.filter fun b => error &&& b.1 != 0).map fun b => b.2

set_option maxRecDepth 100000 in
theorem buildConditions_eq : ∀ e < 256, buildConditions e = setConditions e := by decide

set_option maxRecDepth 100000 in
theorem buildConditions_empty : ∀ e < 256, (buildConditions e = [] ↔ e &&& 127 = 0) := by decide

/-- C3, counterexample to the claim as stated: error byte `0x80` is
non-zero, but none of the seven recognised bits is set, so `checkError`
returns success instead of raising `HardwareError`. -/
theorem c3_counterexample :
    checkError { id := 7, instruction := 0, parameters := [], length := 2,
                 error := 0x80, checksum := 0 } = .ok () ∧ (0x80 : Nat) ≠ 0 :=
  ⟨rfl, by decide⟩

/-- C3 (amended — "non-zero error byte" strengthened to "error byte with
at least one of the seven recognised bits `0x01..0x40` set"; a byte whose
only set bit is `0x80` is treated as success): `checkError` succeeds when
no recognised bit is set, and otherwise raises `HardwareError` carrying
the responding device's id and the name of every set condition among
voltage, angle, overheat, range, checksum, overload and
invalid-instruction. -/
theorem c3_check_error (p : ResponsePacket) (he : p.error < 256) :
    (p.error &&& 0x7F = 0 → checkError p = .ok ()) ∧
    (p.error &&& 0x7F ≠ 0 →
      checkError p = .error { code := .hardwareError, deviceId := some p.id,
                              conditions := setConditions p.error }) := by
  constructor
  · intro h
    by_cases h0 : p.error = 0
    · simp [checkError, h0]
    · simp only [checkError]
      rw [if_neg h0]
      rw [if_neg (by
        rw [(buildConditions_empty p.error he).mpr h]
        simp)]
  · intro h
    have h0 : p.error ≠ 0 := by
      intro h0
      rw [h0] at h
      simp at h
    simp only [checkError]
    rw [if_neg h0]
    rw [if_pos (by
      have hne : buildConditions p.error ≠ [] := fun hnil =>
        h ((buildConditions_empty p.error he).mp hnil)
      cases hcase : buildConditions p.error with
      | nil => exact absurd hcase hne
      | cons x xs => simp)]
    rw [buildConditions_eq p.error he]

/-- Witness for C3 at error byte `0x41` (voltage + invalid instruction)
on device 7. -/
theorem c3_check_error_witness :
    ((0x41 : Nat) < 256 ∧ (0x41 : Nat) &&& 0x7F ≠ 0) ∧
    checkError { id := 7, instruction := 0, parameters := [], length := 2,
                 error := 0x41, checksum := 0 } =
      .error { code := .hardwareError, deviceId := some 7,
               conditions := setConditions 0x41 } :=
  ⟨⟨by decide, by decide⟩,
    (c3_check_error { id := 7, instruction := 0, parameters := [], length := 2,
                      error := 0x41, checksum := 0 } (by decide)).2 (by decide)⟩

/-- The byte pair `ProtocolHandler.writeWord` serialises into the WRITE
packet: low byte first. -/
def writeWordData (value : Nat) : List Nat := [getLowByte value, getHighByte value]

/-- The value `ProtocolHandler.readWord` reconstructs from the two bytes
of the READ response: `makeWord(data[0], data[1])`. -/
def readWordValue (data : List Nat) : Nat := makeWord (data.getD 0 0) (data.getD 1 0)

theorem getLowByte_eq (v : Nat) : getLowByte v = v % 256 := by
  rw [getLowByte, show (0xFF : Nat) = 2 ^ 8 - 1 from rfl, Nat.and_pow_two_sub_one_eq_mod]

theorem getHighByte_eq (v : Nat) : getHighByte v = v / 256 % 256 := by
  rw [getHighByte, show (0xFF : Nat) = 2 ^ 8 - 1 from rfl, Nat.and_pow_two_sub_one_eq_mod,
    Nat.shiftRight_eq_div_pow]

theorem makeWord_eq (l h : Nat) (hl : l < 256) : makeWord l h = h * 256 + l := by
  rw [makeWord, Nat.shiftLeft_eq, Nat.mul_comm h (2 ^ 8),
    ← Nat.mul_add_lt_is_or (show l < 2 ^ 8 from hl) h]

/-- C10: register words are serialised little-endian (low byte first:
`writeWordData v = [v % 256, v / 256 % 256]`), `makeWord` inverts the
byte split exactly on `v ≤ 65535`, and `readWord` reconstructs the value
`writeWord` serialised modulo `2^16` in general. -/
theorem c10_word_roundtrip (v : Nat) :
    writeWordData v = [v % 256, v / 256 % 256] ∧
    readWordValue (writeWordData v) = v % 65536 ∧
    (v ≤ 65535 → readWordValue (writeWordData v) = v ∧
      makeWord (getLowByte v) (getHighByte v) = v) := by
  have hw : writeWordData v = [v % 256, v / 256 % 256] := by
    rw [writeWordData, getLowByte_eq, getHighByte_eq]
  have hr : readWordValue (writeWordData v) = v % 65536 := by
    rw [hw, readWordValue]
    simp only [List.getD_cons_zero, List.getD_cons_succ]
    rw [makeWord_eq _ _ (by omega)]
    omega
  refine ⟨hw, hr, fun hle => ⟨?_, ?_⟩⟩
  · rw [hr]; omega
  · have h2 : makeWord (getLowByte v) (getHighByte v) = readWordValue (writeWordData v) := rfl
    rw [h2, hr]; omega

/-- Witness for C10 at `v = 4660 = 0x1234`. -/
theorem c10_word_roundtrip_witness :
    (4660 : Nat) ≤ 65535 ∧
    readWordValue (writeWordData 4660) = 4660 ∧
    makeWord (getLowByte 4660) (getHighByte 4660) = 4660 :=
  ⟨by decide, (c10_word_roundtrip 4660).2.2 (by decide)⟩

/-! Spec-side descriptions of JS `Map` iteration order, for the group
write batch: keys in first-insertion order, each carrying the last value
set for it. -/

/-- The keys of a sequence of insertions in first-occurrence order,
skipping keys already in `seen` (JS `Map` iteration order). -/
def dedupKeys (seen : List Nat) : List Nat → List Nat
  | [] => []
  | k :: rest => if k ∈ seen then dedupKeys seen rest else k :: dedupKeys (k :: seen) rest

/-- The last value bound to a key by a sequence of insertions. -/
def lastValue : List (Nat × List Nat) → Nat → Option (List Nat)
  | [], _ => none
  | (k, v) :: rest, key =>
    match lastValue rest key with
    | some w => some w
    | none => if k = key then some v else none

/-- A sequence of `GroupSyncWrite.addParam` calls. -/
def gswAddAll (g : GroupSyncWrite) : List (Nat × List Nat) → Except ServoError GroupSyncWrite
  | [] => .ok g
  | (id, d) :: rest =>
    match gswAddParam g id d with
    | .error e => .error e
    | .ok g2 => gswAddAll g2 rest

theorem any_key_iff (m : List (Nat × List Nat)) (k : Nat) :
    m.any (fun e => e.1 = k) = true ↔ k ∈ m.map Prod.fst := by
  rw [List.any_eq_true]
  constructor
  · rintro ⟨e, he, hp⟩
    exact List.mem_map.mpr ⟨e, he, by simpa using hp⟩
  · intro h
    rcases List.mem_map.mp h with ⟨e, he, hk⟩
    exact ⟨e, he, by simpa using hk⟩

theorem mapSet_keys (m : List (Nat × List Nat)) (k : Nat) (v : List Nat) :
    (mapSet m k v).map Prod.fst =
      if k ∈ m.map Prod.fst then m.map Prod.fst else m.map Prod.fst ++ [k] := by
  rw [mapSet]
  by_cases h : m.any (fun e => e.1 = k) = true
  · rw [if_pos h, if_pos ((any_key_iff m k).mp h)]
    rw [List.map_map]
    apply List.map_congr_left
    intro e _
    by_cases he : e.1 = k
    · simp [Function.comp, he]
    · simp [Function.comp, he]
  · rw [if_neg h, if_neg (fun hmem => h ((any_key_iff m k).mpr hmem))]
    simp

theorem mapGet_append (m₁ m₂ : List (Nat × List Nat)) (k : Nat) :
    mapGet (m₁ ++ m₂) k = (mapGet m₁ k).or (mapGet m₂ k) := by
  induction m₁ with
  | nil => simp [mapGet]
  | cons e rest ih =>
    by_cases he : e.1 = k
    · simp [mapGet, he]
    · simp [mapGet, he, ih]

theorem mapGet_eq_none (m : List (Nat × List Nat)) (k : Nat)
    (h : ¬(m.any (fun e => e.1 = k) = true)) : mapGet m k = none := by
  induction m with
  | nil => rfl
  | cons e rest ih =>
    simp only [List.any_cons, Bool.or_eq_true, decide_eq_true_eq] at h
    push_neg at h
    simp only [mapGet, if_neg h.1]
    exact ih (by simpa using h.2)

theorem mapGet_isSome_of_any (m : List (Nat × List Nat)) (k : Nat)
    (h : m.any (fun e => e.1 = k) = true) : ∃ w, mapGet m k = some w := by
  induction m with
  | nil => simp at h
  | cons e rest ih =>
    by_cases he : e.1 = k
    · exact ⟨e.2, by simp [mapGet, he]⟩
    · have hrest : rest.any (fun e => e.1 = k) = true := by
        simp only [List.any_cons, Bool.or_eq_true, decide_eq_true_eq] at h
        rcases h with h | h
        · exact absurd h he
        · exact h
      rcases ih hrest with ⟨w, hw⟩
      exact ⟨w, by simp [mapGet, he, hw]⟩

theorem mapGet_replace (m : List (Nat × List Nat)) (k₀ k : Nat) (v : List Nat) :
    mapGet (m.map fun e => if e.1 = k₀ then (k₀, v) else e) k =
      if k₀ = k then (mapGet m k).map (fun _ => v) else mapGet m k := by
  induction m with
  | nil => simp [mapGet]
  | cons e rest ih =>
    simp only [List.map_cons]
    by_cases h2 : k₀ = k
    · subst h2
      by_cases h1 : e.1 = k₀ <;> simp [mapGet, h1, ih]
    · by_cases h1 : e.1 = k₀
      · simp [mapGet, h1, h2, ih]
      · by_cases h3 : e.1 = k <;> simp [mapGet, h1, h2, h3, Ne.symm h2, ih]

theorem mapGet_mapSet (m : List (Nat × List Nat)) (k₀ k : Nat) (v : List Nat) :
    mapGet (mapSet m k₀ v) k = if k₀ = k then some v else mapGet m k := by
  rw [mapSet]
  by_cases hany : m.any (fun e => e.1 = k₀) = true
  · rw [if_pos hany, mapGet_replace]
    by_cases h2 : k₀ = k
    · subst h2
      rcases mapGet_isSome_of_any m k₀ hany with ⟨w, hw⟩
      simp [hw]
    · simp [h2]
  · rw [if_neg hany, mapGet_append]
    by_cases h2 : k₀ = k
    · subst h2
      rw [mapGet_eq_none m k₀ hany]
      simp [mapGet]
    · simp [mapGet, h2]

theorem dedupKeys_congr (l : List Nat) : ∀ s₁ s₂ : List Nat,
    (∀ x, x ∈ s₁ ↔ x ∈ s₂) → dedupKeys s₁ l = dedupKeys s₂ l := by
  induction l with
  | nil => intro s₁ s₂ _; rfl
  | cons k rest ih =>
    intro s₁ s₂ h
    simp only [dedupKeys]
    by_cases hk : k ∈ s₁
    · rw [if_pos hk, if_pos ((h k).mp hk)]
      exact ih s₁ s₂ h
    · rw [if_neg hk, if_neg (fun hc => hk ((h k).mpr hc))]
      rw [ih (k :: s₁) (k :: s₂) (by intro x; simp [h x])]

/-- A successful sequence of `addParam` calls builds exactly the JS `Map`
of the insertions: keys in first-occurrence order (after those already in
the accumulator) and, for each key, the last value inserted for it. -/
theorem gswAddAll_ok (a w : Nat) (ops : List (Nat × List Nat)) :
    (∀ e ∈ ops, e.2.length = w) → ∀ m : List (Nat × List Nat),
      ∃ g2, gswAddAll ⟨a, w, m⟩ ops = .ok g2 ∧ g2.address = a ∧ g2.dataLength = w ∧
        g2.dataMap.map Prod.fst =
          m.map Prod.fst ++ dedupKeys (m.map Prod.fst) (ops.map Prod.fst) ∧
        ∀ k, mapGet g2.dataMap k = (lastValue ops k).or (mapGet m k) := by
  induction ops with
  | nil =>
    intro _ m
    exact ⟨⟨a, w, m⟩, rfl, rfl, rfl, by simp [dedupKeys], fun k => by simp [lastValue]⟩
  | cons op rest ih =>
    intro hw m
    obtain ⟨k₀, v₀⟩ := op
    have hv₀ : v₀.length = w := hw (k₀, v₀) (List.mem_cons_self _ _)
    have hwrest : ∀ e ∈ rest, e.2.length = w := fun e he => hw e (List.mem_cons_of_mem _ he)
    have hstep : gswAddAll ⟨a, w, m⟩ ((k₀, v₀) :: rest) =
        gswAddAll ⟨a, w, mapSet m k₀ v₀⟩ rest := by
      simp only [gswAddAll, gswAddParam]
      rw [if_neg (by simp [hv₀])]
    rcases ih hwrest (mapSet m k₀ v₀) with ⟨g2, hok, ha, hwlen, hkeys, hvals⟩
    refine ⟨g2, hstep ▸ hok, ha, hwlen, ?_, ?_⟩
    · rw [hkeys, mapSet_keys]
      by_cases hk : k₀ ∈ m.map Prod.fst
      · rw [if_pos hk]
        simp only [List.map_cons, dedupKeys]
        rw [if_pos hk]
      · rw [if_neg hk]
        simp only [List.map_cons, dedupKeys]
        rw [if_neg hk, List.append_assoc, List.singleton_append]
        congr 1
        congr 1
        apply dedupKeys_congr
        intro x
        simp [Or.comm]
    · intro k
      rw [hvals k, mapGet_mapSet]
      simp only [lastValue]
      cases hl : lastValue rest k with
      | some u => simp
      | none =>
        by_cases hk : k₀ = k
        · simp [hk]
        · simp [hk]

/-- C6: starting from an empty batch, any non-empty sequence of
successful `addParam` calls followed by `txPacket` transmits exactly one
packet, addressed to the broadcast id `0xFE` with the `SYNC_WRITE`
instruction, whose parameters are `[registerAddress, width]` followed by
one `(id, value-bytes)` tuple per entry in first-addition order, the last
value added for an id winning; no response is read (`gswTxPacket`
performs no read). -/
theorem c6_group_write (a w : Nat) (ops : List (Nat × List Nat))
    (hw : ∀ e ∈ ops, e.2.length = w) (hne : ops ≠ []) :
    ∃ g : GroupSyncWrite,
      gswAddAll ⟨a, w, []⟩ ops = .ok g ∧
      gswTxPacket g = (.ok (), [createSyncWritePacket a w g.dataMap]) ∧
      createSyncWritePacket a w g.dataMap =
        createPacket BROADCAST_ID Instruction.SYNC_WRITE
          ([a, w] ++ g.dataMap.flatMap fun e => e.1 :: e.2) ∧
      g.dataMap.map Prod.fst = dedupKeys [] (ops.map Prod.fst) ∧
      (∀ k, mapGet g.dataMap k = lastValue ops k) := by
  rcases gswAddAll_ok a w ops hw [] with ⟨g, hok, ha, hwlen, hkeys, hvals⟩
  have hkeys0 : g.dataMap.map Prod.fst = dedupKeys [] (ops.map Prod.fst) := by
    simpa using hkeys
  have hmapne : g.dataMap ≠ [] := by
    intro hnil
    rcases List.exists_cons_of_ne_nil hne with ⟨op, rest, rfl⟩
    rw [hnil] at hkeys0
    simp only [List.map_nil] at hkeys0
    simp [List.map_cons, dedupKeys] at hkeys0
  refine ⟨g, hok, ?_, rfl, hkeys0, fun k => by rw [hvals k]; simp [mapGet]⟩
  rw [gswTxPacket, if_neg (by simpa using fun h => hmapne (List.length_eq_zero.mp h)), ha, hwlen]

/-- Witness for C6: entries for ids 1, 2, 3 with 2-byte values at
register 42. -/
theorem c6_group_write_witness :
    ((∀ e ∈ ([(1, [10, 20]), (2, [30, 40]), (3, [50, 60])] : List (Nat × List Nat)),
        e.2.length = 2) ∧
      ([(1, [10, 20]), (2, [30, 40]), (3, [50, 60])] : List (Nat × List Nat)) ≠ []) ∧
    (∃ g : GroupSyncWrite,
      gswAddAll ⟨42, 2, []⟩ [(1, [10, 20]), (2, [30, 40]), (3, [50, 60])] = .ok g ∧
      gswTxPacket g = (.ok (), [createSyncWritePacket 42 2 g.dataMap]) ∧
      createSyncWritePacket 42 2 g.dataMap =
        createPacket BROADCAST_ID Instruction.SYNC_WRITE
          ([42, 2] ++ g.dataMap.flatMap fun e => e.1 :: e.2) ∧
      g.dataMap.map Prod.fst =
        dedupKeys []
          (([(1, [10, 20]), (2, [30, 40]), (3, [50, 60])] : List (Nat × List Nat)).map Prod.fst) ∧
      (∀ k, mapGet g.dataMap k =
        lastValue [(1, [10, 20]), (2, [30, 40]), (3, [50, 60])] k)) :=
  ⟨⟨by decide, by decide⟩, c6_group_write 42 2 _ (by decide) (by decide)⟩

/-- C9: `addParam` raises `InvalidParameter` (carrying the id) exactly
when the data length differs from the batch's configured width, leaving
the entry map unchanged in that case (the embedding returns no new
state on error); `txPacket` raises `InvalidParameter` exactly when no
entries were added, and transmits nothing in that case. -/
theorem c9_group_write_misuse (g : GroupSyncWrite) (id : Nat) (data : List Nat) :
    (gswAddParam g id data = .error { code := .invalidParameter, deviceId := some id } ↔
      data.length ≠ g.dataLength) ∧
    ((gswTxPacket g).1 = .error { code := .invalidParameter } ↔ g.dataMap = []) ∧
    (g.dataMap = [] → gswTxPacket g = (.error { code := .invalidParameter }, [])) := by
  refine ⟨⟨?_, ?_⟩, ⟨?_, ?_⟩, ?_⟩
  · intro h hc
    rw [gswAddParam, if_neg (by simp [hc])] at h
    simp at h
  · intro hne
    rw [gswAddParam, if_pos hne]
  · intro h
    by_contra hc
    rw [gswTxPacket, if_neg (by simpa using fun hl => hc (List.length_eq_zero.mp hl))] at h
    simp at h
  · intro hnil
    rw [gswTxPacket, if_pos (by simp [hnil])]
  · intro hnil
    rw [gswTxPacket, if_pos (by simp [hnil])]

/-- Witness for C9: wrong-width data on an empty width-2 batch, and
`txPacket` on the empty batch. -/
theorem c9_group_write_misuse_witness :
    gswAddParam ⟨42, 2, []⟩ 1 [7] =
      .error { code := .invalidParameter, deviceId := some 1 } ∧
    gswTxPacket ⟨42, 2, []⟩ = (.error { code := .invalidParameter }, []) :=
  ⟨(c9_group_write_misuse ⟨42, 2, []⟩ 1 [7]).1.mpr (by decide),
   (c9_group_write_misuse ⟨42, 2, []⟩ 1 [7]).2.2 rfl⟩

/-- The byte list `createPacket` produces, in explicit frame shape, when
the parameters are bytes. -/
theorem createPacket_explicit (id instruction : Nat) (parameters : List Nat)
    (hp : ∀ b ∈ parameters, b < 256) :
    createPacket id instruction parameters =
      [255, 255, byte id, byte (parameters.length + 2), byte instruction] ++
        (parameters ++ [calculateChecksum
          ([byte id, byte (parameters.length + 2), byte instruction] ++ parameters)]) := by
  simp only [createPacket, map_byte_eq hp, HEADER0, HEADER1]
  simp

/-- The header scan discards the garbage prefix one byte at a time and
stops exactly at the frame, provided no `FF FF` window starts inside the
garbage. -/
theorem scanHeader_skip (fr : List Nat) (h0 : fr.getD 0 0 = 255) (h1 : fr.getD 1 0 = 255)
    (hlen : 2 ≤ fr.length) :
    ∀ g : List Nat,
      (∀ i < g.length, ¬((g ++ fr).getD i 0 = 255 ∧ (g ++ fr).getD (i + 1) 0 = 255)) →
      scanHeader (g ++ fr) = (.ok (), fr) := by
  intro g
  induction g with
  | nil =>
    intro _
    obtain ⟨x, rest, rfl⟩ : ∃ x rest, fr = x :: rest := by
      cases fr with
      | nil => simp at hlen
      | cons x rest => exact ⟨x, rest, rfl⟩
    cases rest with
    | nil => simp at hlen
    | cons y rest2 =>
      simp only [List.getD_cons_zero, List.getD_cons_succ] at h0 h1
      simp only [List.nil_append, scanHeader, HEADER0, HEADER1]
      rw [if_pos ⟨h0, h1⟩]
  | cons b g2 ih =>
    intro hno
    obtain ⟨c, rest, hcr⟩ : ∃ c rest, g2 ++ fr = c :: rest := by
      cases hgf : g2 ++ fr with
      | nil =>
        have hfl := congrArg List.length hgf
        simp only [List.length_append, List.length_nil] at hfl
        omega
      | cons c rest => exact ⟨c, rest, rfl⟩
    have hnot : ¬(b = 255 ∧ c = 255) := by
      have h := hno 0 (by simp)
      simp only [List.cons_append, List.getD_cons_zero, List.getD_cons_succ] at h
      rw [hcr] at h
      simpa using h
    rw [List.cons_append, hcr]
    simp only [scanHeader, HEADER0, HEADER1]
    rw [if_neg hnot, ← hcr]
    apply ih
    intro i hi
    have h := hno (i + 1) (by simp only [List.length_cons]; omega)
    simpa only [List.cons_append, List.getD_cons_succ] using h

/-- The full receive phase on a garbage prefix followed by one exact
well-formed frame: the garbage is discarded, the frame is extracted and
parsed, and nothing is left in the buffer. -/
theorem receivePacket_frame (a b c : Nat) (P : List Nat) (cs : Nat)
    (hb : b = P.length + 2) (hP : P.length ≤ 253)
    (hcs : cs = calculateChecksum ([a, b, c] ++ P)) (g : List Nat)
    (hg : ∀ i < g.length,
      ¬((g ++ ([255, 255, a, b, c] ++ (P ++ [cs]))).getD i 0 = 255 ∧
        (g ++ ([255, 255, a, b, c] ++ (P ++ [cs]))).getD (i + 1) 0 = 255)) :
    receivePacket (g ++ ([255, 255, a, b, c] ++ (P ++ [cs]))) =
      (.ok { id := a, instruction := 0, parameters := P, length := b, error := c,
             checksum := cs }, []) := by
  set fr : List Nat := [255, 255, a, b, c] ++ (P ++ [cs]) with hfr
  have hfrlen : fr.length = P.length + 6 := by simp [hfr]
  have hscan : scanHeader (g ++ fr) = (.ok (), fr) :=
    scanHeader_skip fr rfl rfl (by omega) g hg
  have hread4 : portRead 4 fr = .ok ([255, 255, a, b], c :: (P ++ [cs])) := by
    rw [portRead, if_pos (by omega)]
    exact rfl
  have hlen2 : getPacketLength [255, 255, a, b] = some (4 + b) := rfl
  have hreadrest : portRead (4 + b - 4) (c :: (P ++ [cs])) =
      .ok (c :: (P ++ [cs]), []) := by
    have hdroplen : (c :: (P ++ [cs])).length = P.length + 2 := by simp
    rw [portRead, if_pos (by omega)]
    rw [show 4 + b - 4 = b from by omega]
    rw [List.take_of_length_le (by omega), List.drop_of_length_le (by omega)]
  rw [receivePacket, hscan]
  simp only []
  rw [hread4]
  simp only []
  rw [hlen2]
  simp only []
  rw [hreadrest]
  simp only []
  have happ : ([255, 255, a, b] ++ (c :: (P ++ [cs]))) = fr := by simp [hfr]
  rw [happ, hfr]
  rw [parsePacket_wellformed a b c P cs hb hP hcs]

/-- C8: for every inbound buffer made of a garbage prefix (containing no
`FF FF` window starting within the garbage) followed by one complete
valid frame, the receive loop shared by `sendAndReceive` and
`GroupSyncRead.readResponse` discards the garbage one byte at a time and
extracts exactly that frame — the buffer need not begin at a frame
boundary. -/
theorem c8_stream_resync (garbage : List Nat) (id err : Nat) (params : List Nat)
    (hid : id < 256) (herr : err < 256)
    (hp : ∀ b ∈ params, b < 256) (hL : params.length ≤ 253)
    (hg : ∀ i < garbage.length,
      ¬((garbage ++ createPacket id err params).getD i 0 = 255 ∧
        (garbage ++ createPacket id err params).getD (i + 1) 0 = 255)) :
    receivePacket (garbage ++ createPacket id err params) =
      (.ok { id := id, instruction := 0, parameters := params,
             length := params.length + 2, error := err,
             checksum := calculateChecksum
               ([id, params.length + 2, err] ++ params) }, []) := by
  have hbid : byte id = id := Nat.mod_eq_of_lt hid
  have hberr : byte err = err := Nat.mod_eq_of_lt herr
  have hb2 : byte (params.length + 2) = params.length + 2 := Nat.mod_eq_of_lt (by omega)
  have hexp := createPacket_explicit id err params hp
  rw [hbid, hberr, hb2] at hexp
  rw [hexp] at hg ⊢
  exact receivePacket_frame id (params.length + 2) err params _ rfl hL rfl garbage hg

/-- Witness for C8: garbage `[0, 255, 7]` followed by a frame for
device 5. -/
theorem c8_stream_resync_witness :
    (∀ i < ([0, 255, 7] : List Nat).length,
      ¬(([0, 255, 7] ++ createPacket 5 0 []).getD i 0 = 255 ∧
        ([0, 255, 7] ++ createPacket 5 0 []).getD (i + 1) 0 = 255)) ∧
    receivePacket ([0, 255, 7] ++ createPacket 5 0 []) =
      (.ok { id := 5, instruction := 0, parameters := [], length := 2, error := 0,
             checksum := calculateChecksum ([5, 2, 0] ++ []) }, []) :=
  ⟨by decide, c8_stream_resync [0, 255, 7] 5 0 [] (by decide) (by decide) (by decide)
    (by decide) (by decide)⟩

/-- Each transaction transmits its request packet unconditionally: the
target id is never inspected before the write. -/
theorem sendAndReceive_written (pkt : List Nat) (eid : Nat) (p : Port) :
    ((sendAndReceive pkt eid p).2).written = p.written ++ [pkt] := by
  simp only [sendAndReceive]

theorem readData_written (i a l : Nat) (p : Port) :
    ((readData i a l p).2).written = p.written ++ [createReadPacket i a l] := by
  simp only [readData]
  rcases hsr : sendAndReceive (createReadPacket i a l) i p with ⟨r, port1⟩
  have hw : port1.written = p.written ++ [createReadPacket i a l] := by
    have h := sendAndReceive_written (createReadPacket i a l) i p
    rw [hsr] at h
    exact h
  cases r with
  | error e => simp [hw]
  | ok resp => by_cases hres : resp.parameters.length < l <;> simp [hw, hres]

/-- C4 (amended — no broadcast-id rejection exists: single-device
operations do not validate the target id, and a call with target `0xFE`
performs the normal request/response transaction, transmitting the
request like for any other id; only `setID` range-checks its new-id
argument): for every target id, including the broadcast id 254, `ping`
transmits the ping request as its first packet. -/
theorem c4_broadcast_not_rejected (id : Nat) (inbound : List Nat) :
    ((ping id ⟨inbound, []⟩).2).written.head? = some (createPingPacket id) := by
  simp only [ping]
  rcases hsr : sendAndReceive (createPingPacket id) id ⟨inbound, []⟩ with ⟨r, port1⟩
  have hw : port1.written = [createPingPacket id] := by
    have h := sendAndReceive_written (createPingPacket id) id ⟨inbound, []⟩
    rw [hsr] at h
    simpa using h
  cases r with
  | error e => simp [hw]
  | ok resp =>
    rcases hrd : readData id 3 2 port1 with ⟨mres, port2⟩
    have hw2 : port2.written.head? = some (createPingPacket id) := by
      have h := readData_written id 3 2 port1
      rw [hrd] at h
      simp only at h
      rw [h, hw]
      rfl
    cases mres with
    | error e => simp [hw2]
    | ok md =>
      rcases hfd : readData id 2 1 port2 with ⟨fres, port3⟩
      have hw3 : port3.written.head? = some (createPingPacket id) := by
        have h := readData_written id 2 1 port2
        rw [hfd] at h
        simp only at h
        rw [h]
        rw [List.head?_append, hw2]
        rfl
      cases fres with
      | error e => simp [hw3]
      | ok fd => simp [hw3]

/-- C4, counterexample to the claim as stated: `ping 254` is not rejected
with a typed failure — it transmits the ping request to `0xFE`, accepts a
response echoing id 254, and returns success (the best-effort model read
times out and is swallowed). -/
theorem c4_counterexample :
    (ping 254 ⟨createPacket 254 0 [], []⟩).1 =
      .ok { id := 254, modelNumber := 0, firmwareVersion := 0 } ∧
    ((ping 254 ⟨createPacket 254 0 [], []⟩).2).written =
      [createPingPacket 254, createReadPacket 254 3 2] :=
  ⟨rfl, rfl⟩

/-- C5: with ids 1, 2, 3 where id 2 never answers but the replies of
ids 1 and 3 are already buffered, `txRxPacket` returns a result map
containing only id 1: the read attempt for id 2 consumes id 3's frame,
fails the id check, and discards it, so id 3's read then finds an empty
buffer and times out. The loop does continue past each failure, but the
result is `{1}`, not the `{1, 3}` the spec promises. -/
theorem c5_group_read_cascade :
    gsrTxRxPacket ⟨56, 2, [1, 2, 3], []⟩
        (createPacket 1 0 [52, 18] ++ createPacket 3 0 [99, 1]) =
      (.ok ⟨56, 2, [1, 2, 3], [(1, [52, 18])]⟩, [],
        [createSyncReadPacket 56 2 [1, 2, 3]]) ∧
    gsrGetData ⟨56, 2, [1, 2, 3], [(1, [52, 18])]⟩ 1 = some [52, 18] ∧
    gsrGetData ⟨56, 2, [1, 2, 3], [(1, [52, 18])]⟩ 2 = none ∧
    gsrGetData ⟨56, 2, [1, 2, 3], [(1, [52, 18])]⟩ 3 = none :=
  ⟨rfl, rfl, rfl, rfl⟩

end Feetech
